import Mathlib

/-!
Shallow embedding of `pct-org/ettv-api` (`src/index.js`) and verification of
its specification claims.

JavaScript strings are embedded as `List Char` (`Str`).  The embedding covers:

* `String.prototype.split` with a one-character separator (`jsSplit`);
* Node's `querystring.escape` (percent-encoding of the UTF-8 bytes of every
  character outside the unescaped set) and `querystring.stringify`
  restricted to the value shapes the module passes it (plain string,
  `undefined`, array of strings);
* the module-level `defaultTrackers` constant;
* `_convertChunk`, `_convertToTorrents`;
* the promise wiring of `_get` as a function from the transport outcome to
  an optional settlement (`none` = the returned promise never settles).
-/

namespace EttvApi

/-- JavaScript strings, embedded as lists of characters. -/
abbrev Str := List Char

/-- Embedding of `s.split(sep)` for a one-character separator `sep`
(used by the source as `chunk.split('|')` and `res.split('\n')`):
the pieces of `s` between occurrences of `sep`, with `''.split(sep) = ['']`. -/
def jsSplit (sep : Char) (s : Str) : List Str :=
  s.splitOn sep

/-- Characters that Node's `querystring.escape` leaves unescaped:
ASCII alphanumerics and `! ' ( ) * - . _ ~`
(`Char.ofNat 39` is the apostrophe). -/
def noEscape (c : Char) : Bool :=
  c.isAlphanum || c == '!' || c == Char.ofNat 39 || c == '(' || c == ')' ||
    c == '*' || c == '-' || c == '.' || c == '_' || c == '~'

/-- Uppercase hexadecimal digit for `n < 16`. -/
def hexDigit (n : Nat) : Char :=
  if n < 10 then Char.ofNat (48 + n) else Char.ofNat (55 + n)

/-- UTF-8 bytes of a character, as natural numbers below 256. -/
def utf8Bytes (c : Char) : List Nat :=
  let n := c.toNat
  if n < 128 then [n]
  else if n < 2048 then [192 + n / 64, 128 + n % 64]
  else if n < 65536 then [224 + n / 4096, 128 + (n / 64) % 64, 128 + n % 64]
  else [240 + n / 262144, 128 + (n / 4096) % 64, 128 + (n / 64) % 64, 128 + n % 64]

/-- Escape a single character the way Node's `querystring.escape` does:
kept verbatim when in the unescaped set, otherwise every UTF-8 byte
becomes `%XX` with uppercase hex digits. -/
def escapeChar (c : Char) : Str :=
  if noEscape c then [c]
  else (utf8Bytes c).flatMap fun b => ['%', hexDigit (b / 16), hexDigit (b % 16)]

/-- Embedding of Node's `querystring.escape` applied to a whole string. -/
def escape (s : Str) : Str :=
  s.flatMap escapeChar

/-- The JavaScript values the module feeds to `querystring.stringify`:
a plain string, `undefined` (a field missing from a short line), or an
array of strings (the tracker list). -/
inductive JSVal where
  | str (s : Str)
  | undefined
  | arr (xs : List Str)

/-- Key/value pairs emitted by Node's `querystring.stringify` for one
object, in object-key order: a string value yields one pair with the
escaped value, `undefined` yields one pair with an empty value
(`stringifyPrimitive` turns it into `''`), and an array yields one pair
per element, each element escaped (an empty array yields no pair). -/
def stringifyPairs (obj : List (Str × JSVal)) : List (Str × Str) :=
  obj.flatMap fun kv =>
    match kv.2 with
    | .str s => [(escape kv.1, escape s)]
    | .undefined => [(escape kv.1, [])]
    | .arr xs => xs.map fun x => (escape kv.1, escape x)

/-- Render a pair list as `k=v` fields joined by `&`, exactly as Node's
`stringify` loop accumulates them. -/
def renderPairs : List (Str × Str) → Str
  | [] => []
  | [p] => p.1 ++ '=' :: p.2
  | p :: ps => p.1 ++ '=' :: p.2 ++ '&' :: renderPairs ps

/-- Embedding of Node's `querystring.stringify` on the shapes used here. -/
def stringify (obj : List (Str × JSVal)) : Str :=
  renderPairs (stringifyPairs obj)

/-- The `defaultTrackers` constant exported by `src/index.js`. -/
def defaultTrackers : List Str :=
  ["udp%3A%2F%2Ftracker.coppersurfer.tk:6969/announce&".toList,
   "udp%3A%2F%2F9.rarbg.to:2710/announce&".toList,
   "udp%3A%2F%2F9.rarbg.me:2710/announce&".toList,
   "udp%3A%2F%2FIPv6.open-internet.nl:6969/announce&".toList,
   "udp%3A%2F%2Ftracker.internetwarriors.net:1337/announce&".toList,
   "udp%3A%2F%2Ftracker.opentrackr.org:1337/announce&".toList,
   "udp%3A%2F%2Fp4p.arenabg.com:1337/announce&".toList,
   "udp%3A%2F%2Feddie4.nl:6969/announce&".toList,
   "udp%3A%2F%2Fshadowshq.yi.org:6969/announce&".toList,
   "udp%3A%2F%2Ftracker.leechers-paradise.org:6969/announce&".toList,
   "udp%3A%2F%2Fexplodie.org:6969/announce&".toList,
   "udp%3A%2F%2Ftracker.tiny-vps.com:6969/announce&".toList,
   "udp%3A%2F%2Finferno.demonoid.pw:3391/announce&".toList,
   "udp%3A%2F%2Fipv4.tracker.harry.lu:80/announce&".toList,
   "udp%3A%2F%2Fpeerfect.org:6969/announce&".toList,
   "udp%3A%2F%2Ftracker.pirateparty.gr:6969/announce&".toList,
   "udp%3A%2F%2Ftracker.vanitycore.co:6969/announce&".toList,
   "udp%3A%2F%2Fopen.stealth.si:80/announce&".toList,
   "udp%3A%2F%2Ftracker.torrent.eu.org:451&".toList,
   "udp%3A%2F%2Ftracker.zer0day.to:1337/announce&".toList,
   "udp%3A%2F%2Ftracker.open-internet.nl:6969/announce".toList]

/-- The torrent object built per line.  A field that the `reduce` over
`headers` sets to `undefined` (line shorter than four fields) is `none`. -/
structure Torrent where
  hash : Option Str
  title : Option Str
  category : Option Str
  link : Option Str
  magnet : Str
deriving DecidableEq, Inhabited, Repr

/-- Template-literal interpolation of a possibly-`undefined` value, as in
the backtick string building the `xt` parameter: `undefined` prints as the
word `undefined`. -/
def jsInterp : Option Str → Str
  | some s => s
  | none => "undefined".toList

/-- The JavaScript value of a possibly-`undefined` field as passed in the
object literal given to `stringify` (the `dn` parameter). -/
def jsValOf : Option Str → JSVal
  | some s => .str s
  | none => .undefined

/-- The object literal `{ xt: ..., dn: ..., tr: ... }` that `_convertChunk`
passes to `stringify`, as a key-ordered pair list. -/
def magnetObj (hash title : Option Str) (trackers : List Str) : List (Str × JSVal) :=
  [("xt".toList, .str ("urn:btih:".toList ++ jsInterp hash)),
   ("dn".toList, jsValOf title),
   ("tr".toList, .arr trackers)]

/-- Embedding of `_convertChunk`: split the line on `|`, assign the first
four fields to `hash`, `title`, `category`, `link`, and build the magnet
string `$magnet:?` + `stringify({xt, dn, tr})`. -/
def _convertChunk (trackers : List Str) (chunk : Str) : Torrent :=
  let fields := jsSplit '|' chunk
  { hash := (fields[0]?)
    title := (fields[1]?)
    category := (fields[2]?)
    link := (fields[3]?)
    magnet := "$magnet:?".toList ++ stringify (magnetObj (fields[0]?) (fields[1]?) trackers) }

/-- Embedding of `_convertToTorrents`: split the dump on newlines, drop
lines strictly equal to the empty string, convert each remaining line. -/
def _convertToTorrents (trackers : List Str) (res : Str) : List Torrent :=
  ((jsSplit '\n' res).filter (fun l => l ≠ [])).map (_convertChunk trackers)

/-- Outcome of the transport layer for one `_get` call: either the
`https.get` request itself fails (connection refused and similar network
errors emit an `error` event on the request object), or a response arrives
and the gunzip stream either errors or delivers its data chunks and ends. -/
inductive HttpEvent where
  | requestError (msg : Str)
  | gunzipError (msg : Str)
  | body (chunks : List Str)

/-- How the promise returned by `_get` settles. -/
inductive Settled where
  | resolved (data : Str)
  | rejected (err : Str)
deriving DecidableEq

/-- Embedding of the promise wiring in `_get`: the executor attaches an
`error` handler and `data`/`end` handlers only to the gunzip stream.  A
gunzip `error` rejects with `new Error(err)` (modelled as the message
wrapped with an `Error: ` prefix); `end` resolves with the concatenated
chunks.  An `error` event on the request object itself has no handler, so
neither `resolve` nor `reject` ever runs: the promise never settles
(`none`). -/
def _get : HttpEvent → Option Settled
  | .requestError _ => none
  | .gunzipError msg => some (.rejected ("Error: ".toList ++ msg))
  | .body chunks => some (.resolved (chunks.foldl (· ++ ·) []))

/-! ## Helper lemmas about the embedded operations -/

/-- Splitting a string that does not contain the separator returns the
string as the single piece. -/
theorem splitOn_not_mem {c : Char} {l : Str} (h : c ∉ l) : l.splitOn c = [l] := by
  apply List.splitOnP_eq_single
  intro x hx
  simp only [beq_iff_eq]
  rintro rfl
  exact h hx

/-- Splitting distributes over an occurrence of the separator. -/
theorem splitOn_append_cons (c : Char) (x y : Str) :
    (x ++ c :: y).splitOn c = x.splitOn c ++ y.splitOn c := by
  induction x with
  | nil =>
    simp only [List.nil_append, List.splitOn, List.splitOnP_cons, beq_self_eq_true, if_pos]
    rfl
  | cons a x ih =>
    simp only [List.cons_append, List.splitOn, List.splitOnP_cons] at ih ⊢
    by_cases hac : (a == c) = true
    · simp [hac, ih]
    · simp only [hac, Bool.false_eq_true, if_false, ih]
      rcases hx : x.splitOnP (· == c) with _ | ⟨p, ps⟩
      · exact absurd hx (List.splitOnP_ne_nil _ x)
      · rfl

/-- Escaping distributes over appending. -/
theorem escape_append (a b : Str) : escape (a ++ b) = escape a ++ escape b := by
  simp [escape]

/-- Rendering a nonempty pair list: first field, then either nothing or a
separator followed by the rest. -/
theorem renderPairs_cons (p : Str × Str) (ps : List (Str × Str)) :
    renderPairs (p :: ps) =
      p.1 ++ '=' :: p.2 ++ (if ps = [] then [] else '&' :: renderPairs ps) := by
  cases ps with
  | nil => simp [renderPairs]
  | cons q qs => simp [renderPairs]

/-- The pair list that `stringify` derives from the `{xt, dn, tr}` object:
the keys are untouched by escaping, the `xt` and `dn` values are the
escaped hash/title derivations, and each tracker becomes one escaped `tr`
value. -/
theorem stringifyPairs_magnetObj (h t : Option Str) (trackers : List Str) :
    stringifyPairs (magnetObj h t trackers) =
      ("xt".toList, escape ("urn:btih:".toList ++ jsInterp h)) ::
      ("dn".toList, escape (t.getD [])) ::
      trackers.map (fun x => ("tr".toList, escape x)) := by
  have hxt : escape ['x', 't'] = ['x', 't'] := by decide
  have hdn : escape ['d', 'n'] = ['d', 'n'] := by decide
  have htr : escape ['t', 'r'] = ['t', 'r'] := by decide
  have h0 : escape ([] : Str) = [] := rfl
  cases t <;> simp [stringifyPairs, magnetObj, jsValOf, hxt, hdn, htr, h0]

/-! ## Claim theorems -/

/-- C1: for every parsed line and every configured tracker list of length
`N`, the produced Torrent's magnet field is the scheme token followed by
the rendered query of a pair list that contains exactly one `xt` pair
(whose value is derived from the record's hash), exactly one `dn` pair
(whose value is derived from the record's title), and exactly `N` `tr`
pairs, one per configured tracker, in the order `xt`, then `dn`, then the
`tr` pairs in the same order as the configured tracker list. -/
theorem magnet_query_structure (trackers : List Str) (chunk : Str) :
    (_convertChunk trackers chunk).magnet =
      "$magnet:?".toList ++
        stringify (magnetObj ((jsSplit '|' chunk)[0]?) ((jsSplit '|' chunk)[1]?) trackers) ∧
    (stringifyPairs (magnetObj ((jsSplit '|' chunk)[0]?) ((jsSplit '|' chunk)[1]?)
        trackers)).map Prod.fst =
      "xt".toList :: "dn".toList :: trackers.map (fun _ => "tr".toList) ∧
    ((stringifyPairs (magnetObj ((jsSplit '|' chunk)[0]?) ((jsSplit '|' chunk)[1]?)
        trackers)).map Prod.fst).count "xt".toList = 1 ∧
    ((stringifyPairs (magnetObj ((jsSplit '|' chunk)[0]?) ((jsSplit '|' chunk)[1]?)
        trackers)).map Prod.fst).count "dn".toList = 1 ∧
    ((stringifyPairs (magnetObj ((jsSplit '|' chunk)[0]?) ((jsSplit '|' chunk)[1]?)
        trackers)).map Prod.fst).count "tr".toList = trackers.length ∧
    (stringifyPairs (magnetObj ((jsSplit '|' chunk)[0]?) ((jsSplit '|' chunk)[1]?)
        trackers)).filter (fun p => p.1 = "tr".toList) =
      trackers.map (fun x => ("tr".toList, escape x)) ∧
    (stringifyPairs (magnetObj ((jsSplit '|' chunk)[0]?) ((jsSplit '|' chunk)[1]?)
        trackers))[0]? =
      some ("xt".toList, escape ("urn:btih:".toList ++ jsInterp ((jsSplit '|' chunk)[0]?))) ∧
    (stringifyPairs (magnetObj ((jsSplit '|' chunk)[0]?) ((jsSplit '|' chunk)[1]?)
        trackers))[1]? =
      some ("dn".toList, escape (((jsSplit '|' chunk)[1]?).getD [])) := by
  refine ⟨rfl, ?_, ?_, ?_, ?_, ?_, ?_, ?_⟩ <;> rw [stringifyPairs_magnetObj]
  · simp [Function.comp_def, List.map_const']
  · simp [List.count_cons, Function.comp_def, List.map_const', List.count_replicate]
  · simp [List.count_cons, Function.comp_def, List.map_const', List.count_replicate]
  · simp [List.count_cons, Function.comp_def, List.map_const', List.count_replicate]
  · simp [List.filter_cons, List.filter_map, Function.comp_def]
  · rfl
  · simp

/-- C2 (code bug): at the line `abc|Title` with an empty tracker list the
produced magnet string is `$magnet:?xt=urn%3Abtih%3Aabc&dn=Title`: the code
prepends a stray `$`, so the magnet does not begin with the literal token
`magnet:?`. -/
theorem magnet_stray_dollar :
    (_convertChunk [] "abc|Title".toList).magnet =
      "$magnet:?xt=urn%3Abtih%3Aabc&dn=Title".toList ∧
    ¬ "magnet:?".toList <+: (_convertChunk [] "abc|Title".toList).magnet := by
  decide

/-- C3 (code bug): the first default tracker is stored pre-escaped, yet the
query-string builder escapes it again: the `tr` value emitted for it is the
double-escaped form (`%` became `%25`), which differs from the configured
string. -/
theorem trackers_double_escaped :
    defaultTrackers[0]? = some "udp%3A%2F%2Ftracker.coppersurfer.tk:6969/announce&".toList ∧
    escape "udp%3A%2F%2Ftracker.coppersurfer.tk:6969/announce&".toList =
      "udp%253A%252F%252Ftracker.coppersurfer.tk%3A6969%2Fannounce%26".toList ∧
    (stringifyPairs (magnetObj (some "h".toList) (some "t".toList) defaultTrackers))[2]? =
      some ("tr".toList,
        "udp%253A%252F%252Ftracker.coppersurfer.tk%3A6969%2Fannounce%26".toList) ∧
    "udp%253A%252F%252Ftracker.coppersurfer.tk%3A6969%2Fannounce%26".toList ≠
      "udp%3A%2F%2Ftracker.coppersurfer.tk:6969/announce&".toList := by
  refine ⟨rfl, by decide, ?_, by decide⟩
  rw [stringifyPairs_magnetObj]
  decide

/-- C5: a line with fewer than four fields assigns the present fields
positionally and leaves the missing attributes absent — `abc|Title` yields
hash `abc`, title `Title`, no category, no link — and fields beyond the
fourth are ignored: any two lines agreeing on their first four fields
produce identical records. -/
theorem short_line_fields (trackers : List Str) :
    (_convertChunk trackers "abc|Title".toList).hash = some "abc".toList ∧
    (_convertChunk trackers "abc|Title".toList).title = some "Title".toList ∧
    (_convertChunk trackers "abc|Title".toList).category = none ∧
    (_convertChunk trackers "abc|Title".toList).link = none ∧
    ∀ c₁ c₂ : Str, (jsSplit '|' c₁).take 4 = (jsSplit '|' c₂).take 4 →
      _convertChunk trackers c₁ = _convertChunk trackers c₂ := by
  refine ⟨rfl, rfl, rfl, rfl, ?_⟩
  intro c₁ c₂ h
  have hi : ∀ i, i < 4 → (jsSplit '|' c₁)[i]? = (jsSplit '|' c₂)[i]? := by
    intro i hlt
    have h0 := congrArg (fun l => l[i]?) h
    simpa [List.getElem?_take, hlt] using h0
  simp only [_convertChunk]
  rw [hi 0 (by norm_num), hi 1 (by norm_num), hi 2 (by norm_num), hi 3 (by norm_num)]

/-- Witness for `short_line_fields`: the concrete two-field line has no
category, and two lines differing only in their fifth field produce the
same record. -/
theorem short_line_fields_witness :
    (_convertChunk [] "abc|Title".toList).category = none ∧
    _convertChunk [] "a|b|c|d|e".toList = _convertChunk [] "a|b|c|d|x".toList :=
  ⟨(short_line_fields []).2.2.1,
   (short_line_fields []).2.2.2.2 "a|b|c|d|e".toList "a|b|c|d|x".toList (by decide)⟩

/-- C6: a dump whose newline-split pieces are all empty parses to the empty
sequence of records. -/
theorem blank_lines_empty (trackers : List Str) (s : Str)
    (h : ∀ l ∈ jsSplit '\n' s, l = ([] : Str)) :
    _convertToTorrents trackers s = [] := by
  unfold _convertToTorrents
  have hf : (jsSplit '\n' s).filter (fun l => l ≠ []) = [] := by
    rw [List.filter_eq_nil_iff]
    intro a ha
    simp [h a ha]
  rw [hf, List.map_nil]

/-- Witness for `blank_lines_empty` at the concrete text of two newlines. -/
theorem blank_lines_empty_witness : _convertToTorrents [] "\n\n".toList = [] :=
  blank_lines_empty [] "\n\n".toList (by decide)

/-- C7 (code bug): a network-level failure of the request (for example
connection refused) leaves the promise returned by `_get` unsettled — the
executor attaches no `error` handler to the request object — whereas a
gunzip stream error does reject with a single wrapped error. -/
theorem get_request_error_unsettled :
    _get (HttpEvent.requestError "ECONNREFUSED".toList) = none ∧
    (∀ msg, _get (HttpEvent.gunzipError msg) =
      some (Settled.rejected ("Error: ".toList ++ msg))) ∧
    (∀ chunks, _get (HttpEvent.body chunks) =
      some (Settled.resolved (chunks.foldl (· ++ ·) []))) :=
  ⟨rfl, fun _ => rfl, fun _ => rfl⟩

/-- C8: parsing is deterministic, preserves input line order and performs
no deduplication: splitting around an explicit newline yields the
concatenation of the parses of the two halves, in order. -/
theorem parse_deterministic_ordered (trackers : List Str) (s a b : Str) :
    _convertToTorrents trackers s = _convertToTorrents trackers s ∧
    _convertToTorrents trackers (a ++ '\n' :: b) =
      _convertToTorrents trackers a ++ _convertToTorrents trackers b := by
  refine ⟨rfl, ?_⟩
  unfold _convertToTorrents jsSplit
  rw [splitOn_append_cons, List.filter_append, List.map_append]

/-- C9: only lines strictly equal to the empty string are discarded — a
line of other content, for example whitespace, survives the filter and its
full text becomes the record's hash. -/
theorem whitespace_line_kept (trackers : List Str) (l : Str)
    (h1 : '\n' ∉ l) (h2 : l ≠ []) (h3 : '|' ∉ l) :
    _convertToTorrents trackers l = [_convertChunk trackers l] ∧
    (_convertChunk trackers l).hash = some l := by
  constructor
  · unfold _convertToTorrents jsSplit
    rw [splitOn_not_mem h1]
    simp [h2]
  · simp [_convertChunk, jsSplit, splitOn_not_mem h3]

/-- Witness for `whitespace_line_kept` at the single-space line. -/
theorem whitespace_line_kept_witness :
    _convertToTorrents [] " ".toList = [_convertChunk [] " ".toList] ∧
    (_convertChunk [] " ".toList).hash = some " ".toList :=
  whitespace_line_kept [] " ".toList (by decide) (by decide) (by decide)

/-- C4 fails as stated: for the four-field line `aaaa|t|c|l` the produced
magnet escapes the colons of `urn:btih:`, so the magnet does not contain
the literal substring `urn:btih:aaaa`. -/
theorem four_field_line_counterexample :
    (_convertToTorrents [] "aaaa|t|c|l".toList).length = 1 ∧
    ¬ "urn:btih:aaaa".toList <:+: (_convertToTorrents [] "aaaa|t|c|l".toList).head!.magnet := by
  decide

/-- C4 (amended): a single line `H|T|C|L` of four delimiter-free,
newline-free fields parses to exactly one record with the four fields
assigned in order and a non-empty magnet containing the query-escaped form
of `urn:btih:H`, namely `urn%3Abtih%3A` followed by the escaped hash. -/
theorem four_field_line (trackers : List Str) (H T C L : Str)
    (hH : '|' ∉ H) (hT : '|' ∉ T) (hC : '|' ∉ C) (hL : '|' ∉ L)
    (nH : '\n' ∉ H) (nT : '\n' ∉ T) (nC : '\n' ∉ C) (nL : '\n' ∉ L) :
    ∃ r : Torrent,
      _convertToTorrents trackers (H ++ '|' :: (T ++ '|' :: (C ++ '|' :: L))) = [r] ∧
      r.hash = some H ∧ r.title = some T ∧ r.category = some C ∧ r.link = some L ∧
      r.magnet ≠ [] ∧
      ∃ u v, r.magnet = u ++ ("urn%3Abtih%3A".toList ++ escape H) ++ v := by
  have hpipe : ('\n' : Char) ≠ '|' := by decide
  have hnl : '\n' ∉ H ++ '|' :: (T ++ '|' :: (C ++ '|' :: L)) := by
    simp [List.mem_append, List.mem_cons, nH, nT, nC, nL, hpipe]
  have hne : H ++ '|' :: (T ++ '|' :: (C ++ '|' :: L)) ≠ [] := by
    simp
  have hsplitP : jsSplit '|' (H ++ '|' :: (T ++ '|' :: (C ++ '|' :: L))) = [H, T, C, L] := by
    unfold jsSplit
    rw [splitOn_append_cons, splitOn_append_cons, splitOn_append_cons,
      splitOn_not_mem hH, splitOn_not_mem hT, splitOn_not_mem hC, splitOn_not_mem hL]
    rfl
  refine ⟨_convertChunk trackers (H ++ '|' :: (T ++ '|' :: (C ++ '|' :: L))), ?_,
    ?_, ?_, ?_, ?_, ?_, ?_⟩
  · unfold _convertToTorrents jsSplit
    rw [splitOn_not_mem hnl]
    simp [hne]
  · simp [_convertChunk, hsplitP]
  · simp [_convertChunk, hsplitP]
  · simp [_convertChunk, hsplitP]
  · simp [_convertChunk, hsplitP]
  · simp [_convertChunk]
  · refine ⟨"$magnet:?xt=".toList,
      '&' :: renderPairs (("dn".toList, escape T) ::
        trackers.map (fun x => ("tr".toList, escape x))), ?_⟩
    have hurn : escape "urn:btih:".toList = "urn%3Abtih%3A".toList := by decide
    simp only [_convertChunk, hsplitP, stringify, stringifyPairs_magnetObj,
      List.getElem?_cons_zero, List.getElem?_cons_succ, jsInterp]
    rw [escape_append, hurn, renderPairs_cons]
    simp [List.append_assoc]

/-- Witness for `four_field_line` at the concrete line `aaaa|t|c|l` with an
empty tracker list. -/
theorem four_field_line_witness :
    ∃ r : Torrent,
      _convertToTorrents []
          ("aaaa".toList ++ '|' :: ("t".toList ++ '|' :: ("c".toList ++ '|' :: "l".toList))) =
        [r] ∧
      r.hash = some "aaaa".toList ∧ r.title = some "t".toList ∧
      r.category = some "c".toList ∧ r.link = some "l".toList ∧
      r.magnet ≠ [] ∧
      ∃ u v, r.magnet = u ++ ("urn%3Abtih%3A".toList ++ escape "aaaa".toList) ++ v :=
  four_field_line [] "aaaa".toList "t".toList "c".toList "l".toList
    (by decide) (by decide) (by decide) (by decide)
    (by decide) (by decide) (by decide) (by decide)

/-- C10: a line with no `|` delimiter still yields a magnet whose query
contains the `dn` key serialized with an empty value — the absent title is
not omitted — and magnet construction is a total function of the line. -/
theorem single_field_line_dn (trackers : List Str) (chunk : Str) (h : '|' ∉ chunk) :
    (_convertChunk trackers chunk).title = none ∧
    (stringifyPairs (magnetObj ((jsSplit '|' chunk)[0]?) ((jsSplit '|' chunk)[1]?)
        trackers))[1]? =
      some ("dn".toList, []) ∧
    (_convertChunk trackers chunk).magnet =
      "$magnet:?xt=".toList ++ escape ("urn:btih:".toList ++ chunk) ++ "&dn=".toList ++
        (if trackers = [] then []
         else '&' :: renderPairs (trackers.map (fun x => ("tr".toList, escape x)))) := by
  have hsplit : jsSplit '|' chunk = [chunk] := splitOn_not_mem h
  have h0 : escape ([] : Str) = [] := rfl
  refine ⟨?_, ?_, ?_⟩
  · simp [_convertChunk, hsplit]
  · rw [hsplit, stringifyPairs_magnetObj]
    simp [h0]
  · simp only [_convertChunk, hsplit, stringify, stringifyPairs_magnetObj,
      List.getElem?_cons_zero, List.getElem?_cons_succ, jsInterp]
    rw [renderPairs_cons, renderPairs_cons]
    simp [h0, List.map_eq_nil_iff, List.append_assoc]

/-- Witness for `single_field_line_dn` at the line `abc` with an empty
tracker list. -/
theorem single_field_line_dn_witness :
    (_convertChunk [] "abc".toList).title = none ∧
    (stringifyPairs (magnetObj ((jsSplit '|' "abc".toList)[0]?)
        ((jsSplit '|' "abc".toList)[1]?) []))[1]? =
      some ("dn".toList, []) ∧
    (_convertChunk [] "abc".toList).magnet =
      "$magnet:?xt=".toList ++ escape ("urn:btih:".toList ++ "abc".toList) ++ "&dn=".toList ++
        (if ([] : List Str) = [] then []
         else '&' :: renderPairs (([] : List Str).map (fun x => ("tr".toList, escape x)))) :=
  single_field_line_dn [] "abc".toList (by decide)

end EttvApi
